import Mathlib

/-!
Verification of the polymorphic record/registry programs of the
kotlin-text-editor repository (C++ sources under src/practical/):
the hospital record program (q2_hospital.cpp), the transaction ledger
menu program (q3_transactions.cpp) and the library checkout program
(q4_library.cpp).

The embedding is shallow and executable:
* C++ classes become Lean structures; the fields keep their names.
* Methods that read from `cin` take the values they would read as extra
  arguments and return the updated object together with the text written
  to `cout`; methods that only write return the written text.
* Console output is modelled as the sequence of values handed to the
  stream: a `String` for each string operand of `<<`, the integer for
  each `int` operand, and the numeric value (as a rational) for each
  `double` operand.  `endl` is the string "\n".
* `static int` class counters become explicit state threaded through the
  construction functions; C++ `int` is modelled by `Int` (no arithmetic
  other than `++` from zero occurs, so overflow is out of reach).
* Raw owning pointers held in containers are modelled by values: no
  program below both aliases a registry entry and mutates it.
-/

namespace Hospital

/-- One console output item of the hospital program (only strings and
ints are printed there; ints are printed in decimal, exactly `toString`). -/
def intOut (n : Int) : String := toString n

/-- `class Doctor : public Person` - fields `name`, `age` (inherited) and
`doctor_specialist`, `doctor_id`. -/
structure Doctor where
  name : String
  age : Int
  doctor_specialist : Int
  doctor_id : Int
deriving DecidableEq, Repr

/-- `class Patient : public Person` - fields `name`, `age` (inherited) and
`admission_date`, `patient_id`. -/
structure Patient where
  name : String
  age : Int
  admission_date : String
  patient_id : Int
deriving DecidableEq, Repr

/-- `Doctor::Doctor()` : `doctor_id = ++doctor_count`.  Takes the current
value of the static counter `doctor_count`, returns the constructed object
and the new counter value.  The other fields are default-constructed
(`string` to "", the ints modelled as 0). -/
def Doctor.construct (doctor_count : Int) : Doctor × Int :=
  ({ name := "", age := 0, doctor_specialist := 0,
     doctor_id := doctor_count + 1 }, doctor_count + 1)

/-- `Patient::Patient()` : `patient_id = ++patient_count`. -/
def Patient.construct (patient_count : Int) : Patient × Int :=
  ({ name := "", age := 0, admission_date := "",
     patient_id := patient_count + 1 }, patient_count + 1)

/-- `Doctor::getdata()` : reads name, age, specialist id, in that order,
writing one prompt before each read.  The values read are the arguments. -/
def Doctor.getdata (d : Doctor) (inName : String) (inAge : Int)
    (inSpec : Int) : Doctor × List String :=
  ({ d with name := inName, age := inAge, doctor_specialist := inSpec },
   ["Enter Doctor Name: ", "Enter Age: ", "Enter Specialist ID: "])

/-- `Patient::getdata()` : reads name, age, admission date, in that order. -/
def Patient.getdata (p : Patient) (inName : String) (inAge : Int)
    (inDate : String) : Patient × List String :=
  ({ p with name := inName, age := inAge, admission_date := inDate },
   ["Enter Patient Name: ", "Enter Age: ", "Enter Admission Date: "])

/-- `Doctor::putdata()` : one line, built exactly as the chain of `<<`
operands of the source. -/
def Doctor.putdata (d : Doctor) : String :=
  "Doctor -> Name: " ++ d.name ++ ", Age: " ++ intOut d.age
    ++ ", Specialist ID: " ++ intOut d.doctor_specialist
    ++ ", Doctor ID: " ++ intOut d.doctor_id ++ "\n"

/-- `Patient::putdata()`. -/
def Patient.putdata (p : Patient) : String :=
  "Patient -> Name: " ++ p.name ++ ", Age: " ++ intOut p.age
    ++ ", Admission Date: " ++ p.admission_date
    ++ ", Patient ID: " ++ intOut p.patient_id ++ "\n"

/-- A record held through a `Person*` base pointer. -/
inductive PRec where
  | doctor (d : Doctor)
  | patient (p : Patient)
deriving DecidableEq, Repr

/-- Virtual dispatch of `putdata` through the base pointer. -/
def PRec.putdata : PRec → String
  | .doctor d => d.putdata
  | .patient p => p.putdata

/-- The input consumed by one iteration of the record-entry loop of
`main`: the `choice` read first, then the values `getdata` would read
in either branch (only the branch taken actually consumes values). -/
structure HospEntry where
  choice : Int
  inName : String
  inAge : Int
  inSpec : Int
  inDate : String
deriving DecidableEq, Repr

/-- One iteration of the record-entry loop of `main` in q2_hospital.cpp:
`if (choice == 1) new Doctor() else new Patient()`, then `getdata()`.
State is the pair of static counters (doctor_count, patient_count). -/
def hospIter (dc pc : Int) (e : HospEntry) :
    Int × Int × PRec × List String :=
  if e.choice = 1 then
    let (d, dc2) := Doctor.construct dc
    let (d2, outs) := d.getdata e.inName e.inAge e.inSpec
    (dc2, pc, .doctor d2, "\nEnter 1 for Doctor, 2 for Patient: " :: outs)
  else
    let (p, pc2) := Patient.construct pc
    let (p2, outs) := p.getdata e.inName e.inAge e.inDate
    (dc, pc2, .patient p2, "\nEnter 1 for Doctor, 2 for Patient: " :: outs)

/-- The whole record-entry loop, over the list of per-iteration inputs. -/
def hospLoop (dc pc : Int) : List HospEntry → Int × Int × List PRec × List String
  | [] => (dc, pc, [], [])
  | e :: rest =>
    let r := hospIter dc pc e
    let r2 := hospLoop r.1 r.2.1 rest
    (r2.1, r2.2.1, r.2.2.1 :: r2.2.2.1, r.2.2.2 ++ r2.2.2.2)

/-- The display loop `for (i...) people[i]->putdata()`, in storage order.
Its body only writes, so it hands the records back unchanged; the
returned list is the registry after the loop. -/
def presentAll : List PRec → List PRec × List String
  | [] => ([], [])
  | r :: rest =>
    let p := presentAll rest
    (r :: p.1, r.putdata :: p.2)

/-- `main` of q2_hospital.cpp: read `n`, run the entry loop on the first
`n` per-record inputs, display all records, return 0. -/
def hospitalMain (n : Int) (inputs : List HospEntry) :
    List PRec × List String × Int :=
  let r := hospLoop 0 0 (inputs.take n.toNat)
  let p := presentAll r.2.2.1
  (p.1,
   "Enter number of records: " :: r.2.2.2 ++ "\n--- Records ---\n" :: p.2,
   0)

/-- The sequence numbers of the doctors among a record list, in order. -/
def doctorIds (rs : List PRec) : List Int :=
  rs.filterMap fun r =>
    match r with
    | .doctor d => some d.doctor_id
    | .patient _ => none

/-- The sequence numbers of the patients among a record list, in order. -/
def patientIds (rs : List PRec) : List Int :=
  rs.filterMap fun r =>
    match r with
    | .doctor _ => none
    | .patient p => some p.patient_id

/-- Consecutive integers `start+1, start+2, ..., start+k`. -/
def idRange (start : Int) : Nat → List Int
  | 0 => []
  | k + 1 => (start + 1) :: idRange (start + 1) k

end Hospital

namespace Tx

/-- One value handed to `cout` by the transaction program: a string
operand, an `int` operand, or a `double` operand (kept as the rational
value written to the stream; no arithmetic is done on amounts). -/
inductive Out where
  | s (x : String)
  | i (n : Int)
  | q (x : ℚ)
deriving DecidableEq, Repr

/-- `class IncomeTransaction : public Transaction` - fields
`transaction_ID`, `date` (inherited), `source`, `amount`. -/
structure IncomeTransaction where
  transaction_ID : Int
  date : String
  source : String
  amount : ℚ
deriving DecidableEq, Repr

/-- `class ExpenseTransaction : public Transaction` - fields
`transaction_ID`, `date` (inherited), `category`, `amount`. -/
structure ExpenseTransaction where
  transaction_ID : Int
  date : String
  category : String
  amount : ℚ
deriving DecidableEq, Repr

/-- Default-constructed `IncomeTransaction` (string fields empty, the
numeric fields modelled as 0). -/
def IncomeTransaction.construct : IncomeTransaction :=
  { transaction_ID := 0, date := "", source := "", amount := 0 }

/-- Default-constructed `ExpenseTransaction`. -/
def ExpenseTransaction.construct : ExpenseTransaction :=
  { transaction_ID := 0, date := "", category := "", amount := 0 }

/-- The values `IncomeTransaction::recordTransaction` reads, in read
order: transaction ID, date, source line, amount. -/
structure IncomeFields where
  tid : Int
  date : String
  source : String
  amount : ℚ
deriving DecidableEq, Repr

/-- The values `ExpenseTransaction::recordTransaction` reads. -/
structure ExpenseFields where
  tid : Int
  date : String
  category : String
  amount : ℚ
deriving DecidableEq, Repr

/-- `IncomeTransaction::recordTransaction()` : writes the prompts and
stores each value read into the matching field. -/
def IncomeTransaction.recordTransaction (t : IncomeTransaction)
    (f : IncomeFields) : IncomeTransaction × List Out :=
  ({ t with transaction_ID := f.tid, date := f.date,
            source := f.source, amount := f.amount },
   [.s "\n--- Recording Income Transaction ---\n",
    .s "Enter Transaction ID: ", .s "Enter Date (YYYY-MM-DD): ",
    .s "Enter Source of Income: ", .s "Enter Amount Received: "])

/-- `ExpenseTransaction::recordTransaction()`. -/
def ExpenseTransaction.recordTransaction (t : ExpenseTransaction)
    (f : ExpenseFields) : ExpenseTransaction × List Out :=
  ({ t with transaction_ID := f.tid, date := f.date,
            category := f.category, amount := f.amount },
   [.s "\n--- Recording Expense Transaction ---\n",
    .s "Enter Transaction ID: ", .s "Enter Date (YYYY-MM-DD): ",
    .s "Enter Expense Category: ", .s "Enter Amount Spent: "])

/-- A transaction held through a `Transaction*` base pointer. -/
inductive Trans where
  | income (t : IncomeTransaction)
  | expense (t : ExpenseTransaction)
deriving DecidableEq, Repr

/-- `IncomeTransaction::displayInfo()` : the `<<` operand sequence. -/
def IncomeTransaction.displayInfo (t : IncomeTransaction) : List Out :=
  [.s "\n[Income Transaction]\n",
   .s "Transaction ID: ", .i t.transaction_ID, .s "\n",
   .s "Date: ", .s t.date, .s "\n",
   .s "Source: ", .s t.source, .s "\n",
   .s "Amount Received: ", .q t.amount, .s "\n"]

/-- `ExpenseTransaction::displayInfo()`. -/
def ExpenseTransaction.displayInfo (t : ExpenseTransaction) : List Out :=
  [.s "\n[Expense Transaction]\n",
   .s "Transaction ID: ", .i t.transaction_ID, .s "\n",
   .s "Date: ", .s t.date, .s "\n",
   .s "Category: ", .s t.category, .s "\n",
   .s "Amount Spent: ", .q t.amount, .s "\n"]

/-- Virtual dispatch of `displayInfo` through the base pointer. -/
def Trans.displayInfo : Trans → List Out
  | .income t => t.displayInfo
  | .expense t => t.displayInfo

/-- The `case 3` loop `for (auto& tr : transactions) tr->displayInfo()`.
The loop body only writes, so the registry comes back unchanged; the
returned list is the registry after the loop. -/
def displayLoop : List Trans → List Trans × List Out
  | [] => ([], [])
  | t :: rest =>
    let p := displayLoop rest
    (t :: p.1, t.displayInfo ++ p.2)

/-- The input consumed by one iteration of the menu loop of `main`: the
`choice` read first, then the values `recordTransaction` would read in
case 1 or case 2 (only the branch taken actually consumes them). -/
structure MenuInput where
  choice : Int
  incF : IncomeFields
  expF : ExpenseFields
deriving DecidableEq, Repr

/-- The menu text printed at the top of every iteration of the loop. -/
def menuPrompt : List Out :=
  [.s "\n===== Transaction Menu =====\n",
   .s "1. Record Income Transaction\n",
   .s "2. Record Expense Transaction\n",
   .s "3. Display All Transactions\n",
   .s "4. Exit\n",
   .s "Enter your choice: "]

/-- One iteration of the `do { switch(choice) ... } while (choice != 4)`
loop of q3_transactions.cpp: returns the registry after the iteration,
the output written, and the value of the loop condition `choice != 4`. -/
def menuStep (ts : List Trans) (inp : MenuInput) :
    List Trans × List Out × Bool :=
  if inp.choice = 1 then
    let r := IncomeTransaction.construct.recordTransaction inp.incF
    (ts ++ [.income r.1], menuPrompt ++ r.2, true)
  else if inp.choice = 2 then
    let r := ExpenseTransaction.construct.recordTransaction inp.expF
    (ts ++ [.expense r.1], menuPrompt ++ r.2, true)
  else if inp.choice = 3 then
    let p := displayLoop ts
    (p.1, menuPrompt ++ .s "\n===== Transaction Records =====\n" :: p.2, true)
  else if inp.choice = 4 then
    (ts, menuPrompt ++ [.s "Exiting...\n"], false)
  else
    (ts, menuPrompt ++ [.s "Invalid choice! Try again.\n"], true)

/-- Runs the menu loop on the given list of per-iteration inputs.  The
final `Bool` is `true` exactly when the loop terminated by reading the
exit choice; if the input list runs out first the loop is still running
(blocked on the next read) and the flag is `false`. -/
def menuRun (ts : List Trans) : List MenuInput → List Trans × List Out × Bool
  | [] => (ts, [], false)
  | inp :: rest =>
    let r := menuStep ts inp
    if r.2.2 then
      let r2 := menuRun r.1 rest
      (r2.1, r.2.1 ++ r2.2.1, r2.2.2)
    else (r.1, r.2.1, true)

/-- The records the menu loop appends for a given input list: one per
choice-1 or choice-2 iteration, in order, populated from the fields read
at creation time. -/
def recordsOf : List MenuInput → List Trans
  | [] => []
  | inp :: rest =>
    if inp.choice = 1 then
      .income (IncomeTransaction.construct.recordTransaction inp.incF).1
        :: recordsOf rest
    else if inp.choice = 2 then
      .expense (ExpenseTransaction.construct.recordTransaction inp.expF).1
        :: recordsOf rest
    else recordsOf rest

end Tx

namespace Library

/-- `class Book` of q4_library.cpp. -/
structure Book where
  title : String
  author : String
  ISBN : String
  isAvailable : Bool
deriving DecidableEq, Repr

/-- `Book::Book(t, a, i)` : stores the three strings, `isAvailable(true)`. -/
def Book.construct (t a i : String) : Book :=
  { title := t, author := a, ISBN := i, isAvailable := true }

/-- `Book::checkOut()` : if available, mark unavailable and return true,
else return false.  Returns the updated book and the result. -/
def Book.checkOut (b : Book) : Book × Bool :=
  if b.isAvailable then ({ b with isAvailable := false }, true)
  else (b, false)

/-- `class Patron` of q4_library.cpp.  `borrowedBooks` holds `Book*`
pointers; they are modelled by the book values pushed. -/
structure Patron where
  name : String
  cardNumber : String
  borrowedBooks : List Book
deriving DecidableEq, Repr

/-- `Patron::borrowBook(Book&)` : calls `book.checkOut()`; on success
pushes the book onto `borrowedBooks` and prints the borrowed message,
otherwise prints the not-available message.  Returns the updated patron,
the updated book, and the output. -/
def Patron.borrowBook (p : Patron) (book : Book) :
    Patron × Book × List String :=
  let (book2, ok) := book.checkOut
  if ok then
    ({ p with borrowedBooks := p.borrowedBooks ++ [book2] }, book2,
     [p.name ++ " borrowed \"" ++ book2.title ++ "\"\n"])
  else
    (p, book2, ["Sorry, \"" ++ book2.title ++ "\" is not available.\n"])

end Library

namespace Hospital

theorem doctorIds_cons_doctor (d : Doctor) (rs : List PRec) :
    doctorIds (.doctor d :: rs) = d.doctor_id :: doctorIds rs := rfl

theorem doctorIds_cons_patient (p : Patient) (rs : List PRec) :
    doctorIds (.patient p :: rs) = doctorIds rs := rfl

theorem patientIds_cons_doctor (d : Doctor) (rs : List PRec) :
    patientIds (.doctor d :: rs) = patientIds rs := rfl

theorem patientIds_cons_patient (p : Patient) (rs : List PRec) :
    patientIds (.patient p :: rs) = p.patient_id :: patientIds rs := rfl

theorem hospLoop_doctorIds (l : List HospEntry) : ∀ dc pc : Int,
    doctorIds (hospLoop dc pc l).2.2.1 =
      idRange dc (l.countP fun e => decide (e.choice = 1)) := by
  induction l with
  | nil => intro dc pc; simp [hospLoop, doctorIds, idRange]
  | cons e rest ih =>
    intro dc pc
    by_cases h : e.choice = 1
    · simp [hospLoop, hospIter, h, List.countP_cons, ih,
        doctorIds_cons_doctor, idRange, Doctor.construct, Doctor.getdata]
    · simp [hospLoop, hospIter, h, List.countP_cons, ih,
        doctorIds_cons_patient, Patient.construct, Patient.getdata]

theorem hospLoop_patientIds (l : List HospEntry) : ∀ dc pc : Int,
    patientIds (hospLoop dc pc l).2.2.1 =
      idRange pc (l.countP fun e => decide (e.choice ≠ 1)) := by
  induction l with
  | nil => intro dc pc; simp [hospLoop, patientIds, idRange]
  | cons e rest ih =>
    intro dc pc
    by_cases h : e.choice = 1
    · simp [hospLoop, hospIter, h, List.countP_cons, ih,
        patientIds_cons_doctor, Doctor.construct, Doctor.getdata]
    · simp [hospLoop, hospIter, h, List.countP_cons, ih,
        patientIds_cons_patient, idRange, Patient.construct, Patient.getdata]

/-- C1: in the hospital program, the sequence numbers assigned to the
Doctors constructed by the record-entry loop are exactly 1, 2, 3, ... in
construction order, determined by the number of Doctor constructions
alone (so unaffected by interleaved Patient constructions), and
symmetrically for Patients. -/
theorem doctor_patient_sequence_numbers (l : List HospEntry) :
    doctorIds (hospLoop 0 0 l).2.2.1 =
      idRange 0 (l.countP fun e => decide (e.choice = 1)) ∧
    patientIds (hospLoop 0 0 l).2.2.1 =
      idRange 0 (l.countP fun e => decide (e.choice ≠ 1)) :=
  ⟨hospLoop_doctorIds l 0 0, hospLoop_patientIds l 0 0⟩

end Hospital

namespace Hospital

/-- C9: in the hospital record-entry loop a Doctor is constructed exactly
when the per-record choice equals 1; any other choice value constructs
and populates a Patient - there is no invalid-choice branch. -/
theorem choice_one_dispatch (dc pc : Int) (e : HospEntry) :
    ((∃ d, (hospIter dc pc e).2.2.1 = .doctor d) ↔ e.choice = 1) ∧
    (e.choice ≠ 1 → (hospIter dc pc e).2.2.1 =
      .patient { name := e.inName, age := e.inAge,
                 admission_date := e.inDate, patient_id := pc + 1 }) := by
  by_cases h : e.choice = 1
  · refine ⟨⟨fun _ => h, fun _ => ?_⟩, fun hc => absurd h hc⟩
    exact ⟨{ name := e.inName, age := e.inAge, doctor_specialist := e.inSpec,
             doctor_id := dc + 1 },
           by simp [hospIter, h, Doctor.construct, Doctor.getdata]⟩
  · refine ⟨⟨fun ⟨d, hd⟩ => ?_, fun hc => absurd hc h⟩, fun _ => ?_⟩
    · simp [hospIter, h, Patient.construct, Patient.getdata] at hd
    · simp [hospIter, h, Patient.construct, Patient.getdata]

theorem choice_one_dispatch_witness :
    (hospIter 0 0 ⟨99, "Bo", 5, 3, "2024-02-02"⟩).2.2.1 =
      .patient { name := "Bo", age := 5, admission_date := "2024-02-02",
                 patient_id := 1 } :=
  (choice_one_dispatch 0 0 _).2 (by decide)

example : ((Doctor.construct 0).1.getdata "Asha" 34 7).1.putdata =
    "Doctor -> Name: Asha, Age: 34, Specialist ID: 7, Doctor ID: 1\n" := by
  decide

end Hospital

namespace Hospital

/-- C6: the first Doctor constructed in a process (counter at 0),
populated with name "Asha", age 34 and specialist id 7, renders via
`putdata` an output containing the substrings "Asha", "34", "7" and the
sequence number 1 (as "Doctor ID: 1"). -/
theorem first_doctor_present_contains :
    (∃ a b, ((Doctor.construct 0).1.getdata "Asha" 34 7).1.putdata
        = a ++ "Asha" ++ b) ∧
    (∃ a b, ((Doctor.construct 0).1.getdata "Asha" 34 7).1.putdata
        = a ++ "34" ++ b) ∧
    (∃ a b, ((Doctor.construct 0).1.getdata "Asha" 34 7).1.putdata
        = a ++ "7" ++ b) ∧
    (∃ a b, ((Doctor.construct 0).1.getdata "Asha" 34 7).1.putdata
        = a ++ "Doctor ID: 1" ++ b) :=
  ⟨⟨"Doctor -> Name: ", ", Age: 34, Specialist ID: 7, Doctor ID: 1\n",
     by decide⟩,
   ⟨"Doctor -> Name: Asha, Age: ", ", Specialist ID: 7, Doctor ID: 1\n",
     by decide⟩,
   ⟨"Doctor -> Name: Asha, Age: 34, Specialist ID: ", ", Doctor ID: 1\n",
     by decide⟩,
   ⟨"Doctor -> Name: Asha, Age: 34, Specialist ID: 7, ", "\n",
     by decide⟩⟩

end Hospital

namespace Hospital

theorem hospLoop_length (l : List HospEntry) : ∀ dc pc : Int,
    (hospLoop dc pc l).2.2.1.length = l.length := by
  induction l with
  | nil => intro dc pc; simp [hospLoop]
  | cons e rest ih => intro dc pc; simp [hospLoop, ih]

theorem presentAll_eq (rs : List PRec) :
    presentAll rs = (rs, rs.map PRec.putdata) := by
  induction rs with
  | nil => rfl
  | cons r rest ih => simp [presentAll, ih]

/-- C8: the hospital program performs exactly n record creations (n the
count read first), then displays exactly those n records in creation
order, terminates with exit code 0, and consumes no input beyond the
entries of the n-th record. -/
theorem hospital_main_shape (n : Int) (inputs : List HospEntry)
    (h0 : 0 ≤ n) (h : n.toNat ≤ inputs.length) :
    ((hospitalMain n inputs).1.length : Int) = n ∧
    (hospitalMain n inputs).2.2 = 0 ∧
    (∃ pre, (hospitalMain n inputs).2.1 =
       pre ++ (hospitalMain n inputs).1.map PRec.putdata) ∧
    hospitalMain n inputs = hospitalMain n (inputs.take n.toNat) := by
  refine ⟨?_, rfl, ?_, ?_⟩
  · simp [hospitalMain, presentAll_eq, hospLoop_length, List.length_take]
    omega
  · refine ⟨"Enter number of records: "
        :: (hospLoop 0 0 (inputs.take n.toNat)).2.2.2
        ++ ["\n--- Records ---\n"], ?_⟩
    simp [hospitalMain, presentAll_eq]
  · simp [hospitalMain, List.take_take]

theorem hospital_main_shape_witness :
    ((hospitalMain 2 [⟨1, "Asha", 34, 7, "x"⟩, ⟨2, "Ben", 20, 0, "2024-03-01"⟩,
        ⟨1, "Cy", 50, 9, "y"⟩]).1.length : Int) = 2 ∧
    (hospitalMain 2 [⟨1, "Asha", 34, 7, "x"⟩, ⟨2, "Ben", 20, 0, "2024-03-01"⟩,
        ⟨1, "Cy", 50, 9, "y"⟩]).2.2 = 0 :=
  have h := hospital_main_shape 2
    [⟨1, "Asha", 34, 7, "x"⟩, ⟨2, "Ben", 20, 0, "2024-03-01"⟩,
     ⟨1, "Cy", 50, 9, "y"⟩] (by decide) (by decide)
  ⟨h.1, h.2.1⟩

end Hospital

namespace Tx

theorem displayLoop_eq (ts : List Trans) :
    displayLoop ts = (ts, ts.flatMap Trans.displayInfo) := by
  induction ts with
  | nil => rfl
  | cons t rest ih => simp [displayLoop, ih]

theorem menuStep_choice4 (ts : List Trans) (inp : MenuInput)
    (h : inp.choice = 4) :
    menuStep ts inp = (ts, menuPrompt ++ [.s "Exiting...\n"], false) := by
  simp [menuStep, h]

theorem menuStep_cont_true (ts : List Trans) (inp : MenuInput)
    (h : inp.choice ≠ 4) : (menuStep ts inp).2.2 = true := by
  simp only [menuStep]
  split_ifs <;> simp_all

theorem menuRun_no4 (l : List MenuInput) : ∀ ts : List Trans,
    (∀ x ∈ l, x.choice ≠ 4) →
    (menuRun ts l).1 = ts ++ recordsOf l ∧ (menuRun ts l).2.2 = false := by
  induction l with
  | nil => intro ts _; simp [menuRun, recordsOf]
  | cons inp rest ih =>
    intro ts hl
    have hx : inp.choice ≠ 4 := hl inp (List.mem_cons_self inp rest)
    have hrest : ∀ x ∈ rest, x.choice ≠ 4 :=
      fun y hy => hl y (List.mem_cons_of_mem inp hy)
    have hcont := menuStep_cont_true ts inp hx
    by_cases h1 : inp.choice = 1
    · simp [menuRun, hcont, menuStep, h1, recordsOf, (ih _ hrest).1,
        (ih _ hrest).2]
    · by_cases h2 : inp.choice = 2
      · simp [menuRun, hcont, menuStep, h1, h2, recordsOf, (ih _ hrest).1,
          (ih _ hrest).2]
      · by_cases h3 : inp.choice = 3
        · simp [menuRun, hcont, menuStep, h1, h2, h3, recordsOf,
            displayLoop_eq, (ih _ hrest).1, (ih _ hrest).2]
        · simp [menuRun, hcont, menuStep, h1, h2, h3, hx, recordsOf,
            (ih _ hrest).1, (ih _ hrest).2]

end Tx

namespace Tx

/-- C2: for every sequence of menu choices (none of them the exit
choice), a display-all choice renders exactly the records appended so
far, in insertion order, each populated from the fields supplied at its
creation (see `recordsOf`), between the menu text and the records
header; the registry itself is left unchanged. -/
theorem display_renders_insertion_order (pre : List MenuInput)
    (inp : MenuInput) (hpre : ∀ x ∈ pre, x.choice ≠ 4)
    (h3 : inp.choice = 3) :
    (menuRun [] pre).1 = recordsOf pre ∧
    menuStep (menuRun [] pre).1 inp =
      (recordsOf pre,
       menuPrompt ++ .s "\n===== Transaction Records =====\n"
         :: (recordsOf pre).flatMap Trans.displayInfo,
       true) := by
  have hreg := (menuRun_no4 pre [] hpre).1
  simp only [List.nil_append] at hreg
  refine ⟨hreg, ?_⟩
  rw [hreg]
  simp [menuStep, h3, displayLoop_eq]

theorem display_renders_insertion_order_witness :
    menuStep (menuRun []
        [⟨1, ⟨1, "2024-01-01", "Salary", 1000⟩, ⟨0, "", "", 0⟩⟩,
         ⟨2, ⟨0, "", "", 0⟩, ⟨2, "2024-01-02", "Food", 50⟩⟩]).1
      ⟨3, ⟨0, "", "", 0⟩, ⟨0, "", "", 0⟩⟩ =
    ([.income ⟨1, "2024-01-01", "Salary", 1000⟩,
      .expense ⟨2, "2024-01-02", "Food", 50⟩],
     menuPrompt ++ .s "\n===== Transaction Records =====\n"
       :: ((Trans.income ⟨1, "2024-01-01", "Salary", 1000⟩).displayInfo
            ++ (Trans.expense ⟨2, "2024-01-02", "Food", 50⟩).displayInfo),
     true) := by
  have h := display_renders_insertion_order
    [⟨1, ⟨1, "2024-01-01", "Salary", 1000⟩, ⟨0, "", "", 0⟩⟩,
     ⟨2, ⟨0, "", "", 0⟩, ⟨2, "2024-01-02", "Food", 50⟩⟩]
    ⟨3, ⟨0, "", "", 0⟩, ⟨0, "", "", 0⟩⟩ (by decide) rfl
  rw [h.2]
  rfl

/-- C3: a menu choice other than 1, 2, 3, 4 prints the invalid-choice
message, leaves the registry unchanged (no record appended), keeps the
loop running, and produces nothing else. -/
theorem invalid_choice_frame (ts : List Trans) (inp : MenuInput)
    (h1 : inp.choice ≠ 1) (h2 : inp.choice ≠ 2) (h3 : inp.choice ≠ 3)
    (h4 : inp.choice ≠ 4) :
    menuStep ts inp =
      (ts, menuPrompt ++ [.s "Invalid choice! Try again.\n"], true) := by
  simp [menuStep, h1, h2, h3, h4]

theorem invalid_choice_frame_witness :
    menuStep [] ⟨99, ⟨0, "", "", 0⟩, ⟨0, "", "", 0⟩⟩ =
      ([], menuPrompt ++ [.s "Invalid choice! Try again.\n"], true) :=
  invalid_choice_frame [] ⟨99, ⟨0, "", "", 0⟩, ⟨0, "", "", 0⟩⟩
    (by decide) (by decide) (by decide) (by decide)

theorem menuRun_cut (pre : List MenuInput) : ∀ (ts : List Trans)
    (inp : MenuInput) (rest : List MenuInput),
    (∀ x ∈ pre, x.choice ≠ 4) → inp.choice = 4 →
    menuRun ts (pre ++ inp :: rest) = menuRun ts (pre ++ [inp]) ∧
    (menuRun ts (pre ++ inp :: rest)).2.2 = true := by
  induction pre with
  | nil =>
    intro ts inp rest _ h4
    constructor
    · simp [menuRun, menuStep_choice4 ts inp h4]
    · simp [menuRun, menuStep_choice4 ts inp h4]
  | cons x pre ih =>
    intro ts inp rest hpre h4
    have hx : x.choice ≠ 4 := hpre x (List.mem_cons_self x pre)
    have hpre2 : ∀ y ∈ pre, y.choice ≠ 4 :=
      fun y hy => hpre y (List.mem_cons_of_mem x hy)
    have hcont := menuStep_cont_true ts x hx
    constructor
    · simp only [List.cons_append, menuRun, hcont, if_true, List.append_eq]
      rw [(ih (menuStep ts x).1 inp rest hpre2 h4).1]
    · simp only [List.cons_append, menuRun, hcont, if_true, List.append_eq]
      exact (ih (menuStep ts x).1 inp rest hpre2 h4).2

/-- C4: the menu loop never terminates except via the exit choice 4 -
after processing any input list with no choice 4 the loop is still
running, and an input with choice 4 terminates the loop exactly there
(everything after the first 4 is never processed). -/
theorem exit_choice_sole_termination :
    (∀ (ts : List Trans) (l : List MenuInput),
       (∀ x ∈ l, x.choice ≠ 4) → (menuRun ts l).2.2 = false) ∧
    (∀ (ts : List Trans) (pre : List MenuInput) (inp : MenuInput)
       (rest : List MenuInput),
       (∀ x ∈ pre, x.choice ≠ 4) → inp.choice = 4 →
       menuRun ts (pre ++ inp :: rest) = menuRun ts (pre ++ [inp]) ∧
       (menuRun ts (pre ++ inp :: rest)).2.2 = true) :=
  ⟨fun ts l h => (menuRun_no4 l ts h).2,
   fun ts pre inp rest hpre h4 => menuRun_cut pre ts inp rest hpre h4⟩

theorem exit_choice_sole_termination_witness :
    (menuRun [] [⟨99, ⟨0, "", "", 0⟩, ⟨0, "", "", 0⟩⟩]).2.2 = false ∧
    menuRun [] [⟨99, ⟨0, "", "", 0⟩, ⟨0, "", "", 0⟩⟩,
                ⟨4, ⟨0, "", "", 0⟩, ⟨0, "", "", 0⟩⟩,
                ⟨1, ⟨7, "d", "s", 3⟩, ⟨0, "", "", 0⟩⟩] =
      menuRun [] [⟨99, ⟨0, "", "", 0⟩, ⟨0, "", "", 0⟩⟩,
                  ⟨4, ⟨0, "", "", 0⟩, ⟨0, "", "", 0⟩⟩] :=
  ⟨exit_choice_sole_termination.1 [] _ (by decide),
   (exit_choice_sole_termination.2 []
      [⟨99, ⟨0, "", "", 0⟩, ⟨0, "", "", 0⟩⟩]
      ⟨4, ⟨0, "", "", 0⟩, ⟨0, "", "", 0⟩⟩
      [⟨1, ⟨7, "d", "s", 3⟩, ⟨0, "", "", 0⟩⟩] (by decide) rfl).1⟩

end Tx

namespace Tx

/-- C5: an IncomeTransaction populated with ID 1, date "2024-01-01",
source "Salary" and amount 1000.0 renders, via `displayInfo`, an output
headed by the Income variant label and containing all four supplied
field values verbatim. -/
theorem income_present_verbatim :
    (Trans.income
        (IncomeTransaction.construct.recordTransaction
          ⟨1, "2024-01-01", "Salary", 1000⟩).1).displayInfo.head? =
      some (.s "\n[Income Transaction]\n") ∧
    .i 1 ∈ (Trans.income
        (IncomeTransaction.construct.recordTransaction
          ⟨1, "2024-01-01", "Salary", 1000⟩).1).displayInfo ∧
    .s "2024-01-01" ∈ (Trans.income
        (IncomeTransaction.construct.recordTransaction
          ⟨1, "2024-01-01", "Salary", 1000⟩).1).displayInfo ∧
    .s "Salary" ∈ (Trans.income
        (IncomeTransaction.construct.recordTransaction
          ⟨1, "2024-01-01", "Salary", 1000⟩).1).displayInfo ∧
    .q 1000 ∈ (Trans.income
        (IncomeTransaction.construct.recordTransaction
          ⟨1, "2024-01-01", "Salary", 1000⟩).1).displayInfo := by
  refine ⟨rfl, ?_, ?_, ?_, ?_⟩ <;>
    simp [Trans.displayInfo, IncomeTransaction.displayInfo,
      IncomeTransaction.recordTransaction, IncomeTransaction.construct]

end Tx

/-- C7: `present` only writes: the hospital display loop and the
transaction display loop hand back the registry and every record in it
unchanged, rendering each record purely from its fields (`PRec.putdata`,
`Trans.displayInfo`), and no menu-loop step mutates an existing record -
each step extends the registry by (possibly zero) newly constructed
records only, so only `populate` ever sets fields after construction. -/
theorem present_pure_frame :
    (∀ rs : List Hospital.PRec,
       Hospital.presentAll rs = (rs, rs.map Hospital.PRec.putdata)) ∧
    (∀ ts : List Tx.Trans,
       Tx.displayLoop ts = (ts, ts.flatMap Tx.Trans.displayInfo)) ∧
    (∀ (ts : List Tx.Trans) (inp : Tx.MenuInput),
       ∃ new, (Tx.menuStep ts inp).1 = ts ++ new) := by
  refine ⟨Hospital.presentAll_eq, Tx.displayLoop_eq, fun ts inp => ?_⟩
  by_cases h1 : inp.choice = 1
  · exact ⟨[.income (Tx.IncomeTransaction.construct.recordTransaction inp.incF).1],
      by simp [Tx.menuStep, h1]⟩
  · by_cases h2 : inp.choice = 2
    · exact ⟨[.expense (Tx.ExpenseTransaction.construct.recordTransaction inp.expF).1],
        by simp [Tx.menuStep, h1, h2]⟩
    · by_cases h3 : inp.choice = 3
      · exact ⟨[], by simp [Tx.menuStep, h1, h2, h3, Tx.displayLoop_eq]⟩
      · by_cases h4 : inp.choice = 4
        · exact ⟨[], by simp [Tx.menuStep, h1, h2, h3, h4]⟩
        · exact ⟨[], by simp [Tx.menuStep, h1, h2, h3, h4]⟩

namespace Library

/-- C10: `Book::checkOut` returns true and clears the availability flag
exactly when the book was available, otherwise returns false and leaves
the book unchanged (the other fields are never touched); and
`Patron::borrowBook` appends the checked-out book to the borrowed list
exactly when `checkOut` returns true, leaving the list unchanged when it
returns false. -/
theorem checkout_borrow_spec :
    (∀ b : Book,
       ((b.checkOut.2 = true) ↔ b.isAvailable = true) ∧
       b.checkOut.1.title = b.title ∧
       b.checkOut.1.author = b.author ∧
       b.checkOut.1.ISBN = b.ISBN ∧
       (b.isAvailable = true → b.checkOut.1.isAvailable = false) ∧
       (b.isAvailable = false → b.checkOut.1 = b)) ∧
    (∀ (p : Patron) (b : Book),
       (b.checkOut.2 = true →
          (p.borrowBook b).1.borrowedBooks =
            p.borrowedBooks ++ [b.checkOut.1]) ∧
       (b.checkOut.2 = false → (p.borrowBook b).1 = p)) := by
  constructor
  · intro b
    by_cases h : b.isAvailable = true
    · simp [Book.checkOut, h]
    · have hf : b.isAvailable = false := by simpa using h
      simp [Book.checkOut, hf]
  · intro p b
    by_cases h : b.isAvailable = true
    · simp [Patron.borrowBook, Book.checkOut, h]
    · simp at h
      simp [Patron.borrowBook, Book.checkOut, h]

theorem checkout_borrow_spec_witness :
    ((Book.construct "1984" "George Orwell" "67890").checkOut.2 = true →
       ((Patron.mk "Alice" "P001" []).borrowBook
          (Book.construct "1984" "George Orwell" "67890")).1.borrowedBooks =
         [] ++ [(Book.construct "1984" "George Orwell" "67890").checkOut.1]) ∧
    (Book.construct "1984" "George Orwell" "67890").checkOut.2 = true :=
  ⟨(checkout_borrow_spec.2 (Patron.mk "Alice" "P001" [])
      (Book.construct "1984" "George Orwell" "67890")).1,
   (checkout_borrow_spec.1 (Book.construct "1984" "George Orwell" "67890")).1.mpr
     rfl⟩

end Library
